import Mathlib

/-!
Verification of the edbg Linux HID transport (`src/dbg_lin.c`).

The development shallowly embeds the core algorithms of the file:

* `parse_hid_report_desc` — the HID report-descriptor parser that derives
  the negotiated packet size (lines 85–123 of the source);
* `dbg_dap_cmd` — the framed request/response exchange (lines 166–193);
* `dbg_close` — session teardown (lines 153–157).

Byte buffers are modelled as functions `Nat → Nat`; every store into a
`uint8_t` location truncates with `% 256`, matching C semantics.  Machine
integers that the source holds in `int`/`uint32_t` variables are modelled
as `Nat`/`Int`; none of the tracked quantities can overflow 32 bits
(`count` is a bitwise-or of at most four bytes shifted by at most 24
bits).  The parser loop is written with an explicit fuel argument equal
to the descriptor length: the C loop index `i` strictly increases on
every iteration, so `size` iterations always suffice and the fuel never
cuts a run short.  The parser additionally records the list of buffer
indices it reads, so that memory-safety claims can be stated.  The two
blocking device calls inside `dbg_dap_cmd` are modelled by a `Device`
record giving their return values and the bytes deposited by `read`;
the `close(2)` syscall is modelled by an explicit open-descriptor map.
-/

namespace Edbg

/-- A concrete byte buffer: index into a list, with unspecified (zero)
contents past the end.  Reads past the end of a real C buffer return
arbitrary memory; the safety claims only inspect which indices are read,
never the values found there. -/
def dataOf (l : List Nat) : Nat → Nat := fun i => l.getD i 0

/-- The payload-decode loop of the Report Count branch
(`for (j = 0; j < bSize; j++) count |= (data[i + j] << (j * 8));`).
`rem` is the number of iterations left (`bSize - j`), making the
recursion structural. -/
def countLoop (data : Nat → Nat) (i : Nat) : Nat → Nat → Nat → Nat
  | 0, _, acc => acc
  | rem + 1, j, acc => countLoop data i rem (j + 1) (acc ||| ((data (i + j) % 256) <<< (j * 8)))

/-- `bSize = (3 == bSize) ? 4 : bSize;` — the reserved size code 3 denotes
a 4-byte payload. -/
def decodeBSize (s : Nat) : Nat := if s = 3 then 4 else s

/-- The mutable locals of `parse_hid_report_desc` (`count`, `input`,
`output`), plus the list of buffer indices the parser has read so far
(instrumentation for the safety claims, not present in the source). -/
structure ParseState where
  count : Nat
  input : Nat
  output : Nat
  reads : List Nat
  deriving DecidableEq, Repr

def initState : ParseState := ⟨0, 0, 0, []⟩

/-- The main loop of `parse_hid_report_desc` (source lines 92–114).  At
each position the header byte is split into `bTag`/`bType`/`bSize`;
`(type=1, tag=9)` replaces `count` with the little-endian payload,
`(type=0, tag=8)` snapshots `count` into `input`, `(type=0, tag=9)` into
`output`; everything else is skipped.  `fuel` bounds the remaining
iterations; called with `fuel = size` it is exact (the index grows by at
least one per iteration, so the loop performs at most `size` passes). -/
def parseLoop (data : Nat → Nat) (size : Nat) : Nat → Nat → ParseState → ParseState
  | 0, _, st => st
  | fuel + 1, i, st =>
    if i < size then
      let pfx := data i % 256
      let bTag := (pfx >>> 4) &&& 0x0f
      let bType := (pfx >>> 2) &&& 0x03
      let bSize := decodeBSize (pfx &&& 0x03)
      if bType = 1 ∧ bTag = 9 then
        parseLoop data size fuel (i + 1 + bSize)
          { st with
            count := countLoop data (i + 1) bSize 0 0
            reads := st.reads ++ [i] ++ (List.range bSize).map (fun j => i + 1 + j) }
      else if bType = 0 ∧ bTag = 8 then
        parseLoop data size fuel (i + 1 + bSize)
          { st with input := st.count, reads := st.reads ++ [i] }
      else if bType = 0 ∧ bTag = 9 then
        parseLoop data size fuel (i + 1 + bSize)
          { st with output := st.count, reads := st.reads ++ [i] }
      else
        parseLoop data size fuel (i + 1 + bSize) { st with reads := st.reads ++ [i] }
    else st

/-- The two fatal parse errors of the source (`error_exit` calls at lines
116–120). -/
inductive ParseError
  | sizeMismatch
  | unsupportedSize (sz : Nat)
  deriving DecidableEq, Repr

/-- `parse_hid_report_desc` (source lines 85–123): run the loop over the
whole descriptor, then validate that the input and output report sizes
agree and that the common value is 64, 512 or 1024. -/
def parse_hid_report_desc (data : Nat → Nat) (size : Nat) : Except ParseError Nat :=
  let st := parseLoop data size size 0 initState
  if st.input ≠ st.output then .error .sizeMismatch
  else if st.input ≠ 64 ∧ st.input ≠ 512 ∧ st.input ≠ 1024 then
    .error (.unsupportedSize st.input)
  else .ok st.input

/-- `memset(buf, v, n)` on a byte buffer. -/
def memset (buf : Nat → Nat) (v n : Nat) : Nat → Nat :=
  fun i => if i < n then v % 256 else buf i

/-- A single byte store `buf[k] = v`. -/
def setByte (buf : Nat → Nat) (k v : Nat) : Nat → Nat :=
  fun i => if i = k then v % 256 else buf i

/-- `memcpy(&dst[off], src, n)` on byte buffers. -/
def memcpyAt (dst : Nat → Nat) (off : Nat) (src : Nat → Nat) (n : Nat) : Nat → Nat :=
  fun i => if off ≤ i ∧ i < off + n then src (i - off) % 256 else dst i

/-- The outcome of the two blocking device calls inside `dbg_dap_cmd`:
the return value of `write()`, the return value of `read()`, and the
bytes that `read()` deposits at the start of `hid_buffer` (only the
first `readRes` of them are meaningful). -/
structure Device where
  writeRes : Int
  readRes : Int
  readBytes : Nat → Nat

/-- The error conditions of `dbg_dap_cmd` (source lines 176–187):
`perror_exit` after `write`, `perror_exit` after `read`, the
`check(res, "empty response received")`, and the identifier-mismatch
`error_exit`, which reports both the expected and the received byte. -/
inductive ExchangeError
  | writeFailure
  | readFailure
  | emptyResponse
  | mismatch (expected received : Nat)
  deriving DecidableEq, Repr

/-- Everything observable about one `dbg_dap_cmd` call: the physical
frame handed to `write()` (exactly `report_size + 1` bytes), the result
(the returned count `res - 1` together with the caller's buffer after
the in-place response copy, or the fatal error), and the final contents
of the global `hid_buffer`. -/
structure ExchangeOut where
  written : List Nat
  result : Except ExchangeError (Nat × (Nat → Nat))
  hid_final : Nat → Nat

/-- Source lines 171–174: `memset(hid_buffer, 0xff, report_size + 1);
hid_buffer[0] = 0x00; memcpy(&hid_buffer[1], data, req_size);`. -/
def buildFrame (hid : Nat → Nat) (report_size : Nat) (data : Nat → Nat) (req_size : Nat) :
    Nat → Nat :=
  memcpyAt (setByte (memset hid 0xff (report_size + 1)) 0 0x00) 1 data req_size

/-- `dbg_dap_cmd` (source lines 166–193), as a pure function of the
negotiated `report_size`, the previous contents of the global
`hid_buffer`, the device's behaviour on this call, the caller's buffer
`data` (serving as both request and response storage) and the two length
arguments.  The command identifier `cmd` is captured from `data[0]`
before anything is overwritten, exactly as in the source; the response
copy back into `data` happens only after validation succeeds, and copies
`min resp_size (res - 1)` bytes from `hid_buffer[1..]` while the
returned count is the full `res - 1`. -/
def dbg_dap_cmd (report_size : Nat) (hid0 : Nat → Nat) (dev : Device)
    (data : Nat → Nat) (resp_size req_size : Nat) : ExchangeOut :=
  let cmd := data 0 % 256
  let buf1 := buildFrame hid0 report_size data req_size
  let written := (List.range (report_size + 1)).map buf1
  if dev.writeRes < 0 then ⟨written, .error .writeFailure, buf1⟩
  else if dev.readRes < 0 then ⟨written, .error .readFailure, buf1⟩
  else
    let n := dev.readRes.toNat
    let buf2 := memcpyAt buf1 0 dev.readBytes n
    if n = 0 then ⟨written, .error .emptyResponse, buf2⟩
    else if buf2 0 ≠ cmd then ⟨written, .error (.mismatch cmd (buf2 0)), buf2⟩
    else
      let res := n - 1
      let out := memcpyAt data 0 (fun i => buf2 (i + 1)) (min resp_size res)
      ⟨written, .ok (res, out), buf2⟩

/-- Modelled from the spec: the operating system's view of `close(2)`.
`osOpen` is the set of currently open file descriptors; closing an open
descriptor releases it and succeeds, closing anything else (for example
`-1`, or a descriptor that was already closed) releases nothing and
fails benignly with `-1` (`EBADF`) — it never faults. -/
def os_close (osOpen : Int → Bool) (fd : Int) : (Int → Bool) × Int :=
  if osOpen fd then (fun g => if g = fd then false else osOpen g, 0) else (osOpen, -1)

/-- `dbg_close` (source lines 153–157): `if (debugger_fd)
close(debugger_fd);`.  `debugger_fd` is initialised to `-1` (line 23)
and is never reset after a close, so the guard only skips the syscall
when the descriptor is literally zero.  Returns the operating-system
state after the call. -/
def dbg_close (debugger_fd : Int) (osOpen : Int → Bool) : Int → Bool :=
  if debugger_fd ≠ 0 then (os_close osOpen debugger_fd).1 else osOpen

end Edbg

namespace Edbg

/-- Bitwise-or equals addition when the low operand fits below the shift:
this is why the source's `count |= data[i+j] << (j*8)` accumulates a
little-endian value. -/
theorem lor_shiftLeft_eq_add (a b n : Nat) (h : a < 2 ^ n) :
    a ||| (b <<< n) = a + b * 2 ^ n := by
  apply Nat.eq_of_testBit_eq
  intro i
  rw [Nat.testBit_lor, Nat.testBit_shiftLeft]
  rcases Nat.lt_or_ge i n with hi | hi
  · have h1 : ¬ i ≥ n := by omega
    simp only [ge_iff_le, h1, decide_False, Bool.false_and, Bool.or_false]
    rw [Nat.testBit_to_div_mod, Nat.testBit_to_div_mod]
    have e : (a + b * 2 ^ n) / 2 ^ i = a / 2 ^ i + b * 2 ^ (n - i) := by
      have hb : b * 2 ^ n = b * 2 ^ (n - i) * 2 ^ i := by
        rw [mul_assoc, ← pow_add]
        congr 2
        omega
      rw [hb, Nat.add_mul_div_right _ _ (by positivity : (0:ℕ) < 2 ^ i)]
    rw [e]
    have h2 : b * 2 ^ (n - i) % 2 = 0 := by
      have h3 : b * 2 ^ (n - i) = b * 2 ^ (n - i - 1) * 2 := by
        rw [mul_assoc, ← pow_succ]
        congr 2
        omega
      rw [h3, Nat.mul_mod_left]
    have h4 : (a / 2 ^ i + b * 2 ^ (n - i)) % 2 = a / 2 ^ i % 2 := by omega
    rw [h4]
  · have h2 : a.testBit i = false := by
      apply Nat.testBit_lt_two_pow
      calc a < 2 ^ n := h
        _ ≤ 2 ^ i := Nat.pow_le_pow_right (by norm_num) hi
    simp only [ge_iff_le, decide_eq_true_iff.mpr hi, Bool.true_and, h2, Bool.false_or]
    rw [Nat.testBit_to_div_mod, Nat.testBit_to_div_mod]
    have e : (a + b * 2 ^ n) / 2 ^ i = b / 2 ^ (i - n) := by
      have hi2 : (2 : Nat) ^ i = 2 ^ n * 2 ^ (i - n) := by
        rw [← pow_add]
        congr 1
        omega
      rw [hi2, ← Nat.div_div_eq_div_mul,
        Nat.add_mul_div_right _ _ (by positivity : (0:ℕ) < 2 ^ n),
        Nat.div_eq_of_lt h]
      simp
    rw [e]

/-- A four-byte payload decodes to its little-endian value. -/
theorem countLoop_le4 (data : Nat → Nat) (i : Nat)
    (h0 : data i < 256) (h1 : data (i + 1) < 256) (h2 : data (i + 2) < 256)
    (h3 : data (i + 3) < 256) :
    countLoop data i 4 0 0
      = data i + 256 * data (i + 1) + 65536 * data (i + 2) + 16777216 * data (i + 3) := by
  simp only [countLoop, Nat.add_zero, Nat.zero_add, Nat.reduceAdd, Nat.reduceMul, Nat.zero_mul]
  rw [Nat.mod_eq_of_lt h0, Nat.mod_eq_of_lt h1, Nat.mod_eq_of_lt h2, Nat.mod_eq_of_lt h3]
  rw [Nat.zero_or, Nat.shiftLeft_zero]
  rw [lor_shiftLeft_eq_add (data i) (data (i + 1)) 8 (by simpa using h0)]
  rw [lor_shiftLeft_eq_add (data i + data (i + 1) * 2 ^ 8) (data (i + 2)) 16
    (by norm_num; omega)]
  rw [lor_shiftLeft_eq_add (data i + data (i + 1) * 2 ^ 8 + data (i + 2) * 2 ^ 16)
    (data (i + 3)) 24 (by norm_num; omega)]
  norm_num
  ring

/-- The decoded payload size never exceeds four bytes. -/
theorem decodeBSize_le (s : Nat) (h : s ≤ 3) : decodeBSize s ≤ 4 := by
  rw [decodeBSize]
  split <;> omega

/-- Every index the parser loop reads is below `size + 4`: header bytes
are read only below `size`, and a payload extends at most four bytes
past its header. -/
theorem parseLoop_reads_bound (data : Nat → Nat) (size fuel : Nat) :
    ∀ i st, (∀ j ∈ st.reads, j < size + 4) →
      ∀ j ∈ (parseLoop data size fuel i st).reads, j < size + 4 := by
  induction fuel with
  | zero =>
    intro i st h j hj
    rw [parseLoop] at hj
    exact h j hj
  | succ fuel ih =>
    intro i st h j hj
    rw [parseLoop] at hj
    by_cases hi : i < size
    · rw [if_pos hi] at hj
      have hsz : decodeBSize (data i % 256 &&& 0x03) ≤ 4 :=
        decodeBSize_le _ (Nat.and_le_right)
      dsimp only at hj
      split_ifs at hj with h1 h2 h3
      · refine ih _ _ ?_ j hj
        intro k hk
        simp only [List.mem_append, List.mem_singleton, List.mem_map, List.mem_range] at hk
        rcases hk with (hk | hk) | hk
        · exact h k hk
        · omega
        · rcases hk with ⟨m, hm, rfl⟩
          omega
      · refine ih _ _ ?_ j hj
        intro k hk
        simp only [List.mem_append, List.mem_singleton] at hk
        rcases hk with hk | hk
        · exact h k hk
        · omega
      · refine ih _ _ ?_ j hj
        intro k hk
        simp only [List.mem_append, List.mem_singleton] at hk
        rcases hk with hk | hk
        · exact h k hk
        · omega
      · refine ih _ _ ?_ j hj
        intro k hk
        simp only [List.mem_append, List.mem_singleton] at hk
        rcases hk with hk | hk
        · exact h k hk
        · omega
    · rw [if_neg hi] at hj
      exact h j hj

/-- Indexing a mapped range. -/
theorem getD_map_range (f : Nat → Nat) (n k d : Nat) :
    ((List.range n).map f).getD k d = if k < n then f k else d := by
  rcases Nat.lt_or_ge k n with h | h
  · rw [List.getD_eq_getElem?_getD, List.getElem?_map, List.getElem?_range h]
    simp [h]
  · rw [List.getD_eq_getElem?_getD, List.getElem?_map]
    rw [List.getElem?_eq_none (by simpa using h)]
    simp [Nat.not_lt.2 h]

/-- Byte 0 of the outbound frame is the report ID `0x00`. -/
theorem buildFrame_zero (hid : Nat → Nat) (rs : Nat) (data : Nat → Nat) (req : Nat) :
    buildFrame hid rs data req 0 = 0 := by
  simp [buildFrame, memcpyAt, setByte]

/-- Bytes 1 through `req` of the outbound frame are the request. -/
theorem buildFrame_req (hid : Nat → Nat) (rs : Nat) (data : Nat → Nat) (req i : Nat)
    (hi : i < req) : buildFrame hid rs data req (i + 1) = data i % 256 := by
  simp [buildFrame, memcpyAt]
  omega

/-- Frame bytes after the request up to the frame end are the `0xff`
sentinel from the initial `memset`. -/
theorem buildFrame_pad (hid : Nat → Nat) (rs : Nat) (data : Nat → Nat) (req j : Nat)
    (h1 : req < j) (h2 : j ≤ rs) : buildFrame hid rs data req j = 0xff := by
  rw [buildFrame, memcpyAt]
  rw [if_neg (by omega)]
  rw [setByte]
  rw [if_neg (by omega), memset]
  rw [if_pos (by omega)]

/-- Within the frame, `buildFrame` does not depend on the previous
contents of `hid_buffer`: the `memset` overwrites all of it. -/
theorem buildFrame_hid_indep (hid hid' : Nat → Nat) (rs : Nat) (data : Nat → Nat) (req i : Nat)
    (hi : i < rs + 1) :
    buildFrame hid rs data req i = buildFrame hid' rs data req i := by
  rw [buildFrame, buildFrame, memcpyAt, memcpyAt]
  split_ifs with hc
  · rfl
  · rw [setByte, setByte]
    split_ifs with hz
    · rfl
    · rw [memset, memset]
      rw [if_pos hi, if_pos hi]

/-- The frame handed to `write()` is the same in every branch of
`dbg_dap_cmd`. -/
theorem dbg_dap_cmd_written (rs : Nat) (hid0 : Nat → Nat) (dev : Device) (data : Nat → Nat)
    (resp req : Nat) :
    (dbg_dap_cmd rs hid0 dev data resp req).written
      = (List.range (rs + 1)).map (buildFrame hid0 rs data req) := by
  rw [dbg_dap_cmd]
  dsimp only
  split_ifs <;> rfl

/-- Inside the copied region, `memcpy` at offset 0 yields the source. -/
theorem memcpyAt_zero_lt (dst src : Nat → Nat) (n i : Nat) (hi : i < n) :
    memcpyAt dst 0 src n i = src i % 256 := by
  rw [memcpyAt, if_pos ⟨Nat.zero_le i, by omega⟩, Nat.sub_zero]

/-- Beyond the copied region, `memcpy` at offset 0 leaves the target. -/
theorem memcpyAt_zero_ge (dst src : Nat → Nat) (n i : Nat) (hi : n ≤ i) :
    memcpyAt dst 0 src n i = dst i := by
  rw [memcpyAt, if_neg (by omega)]

/-- C1: for every descriptor byte sequence whose Report Count and
Input/Output report items resolve (via the parser loop) to equal input
and output sizes with a common value in `{64, 512, 1024}`, the parser
returns that common value as the negotiated packet size. -/
theorem parse_returns_matching_size (data : Nat → Nat) (size v : Nat)
    (hin : (parseLoop data size size 0 initState).input = v)
    (hout : (parseLoop data size size 0 initState).output = v)
    (hv : v = 64 ∨ v = 512 ∨ v = 1024) :
    parse_hid_report_desc data size = .ok v := by
  rw [parse_hid_report_desc]
  simp only [hin, hout]
  rcases hv with h | h | h <;> subst h <;> simp

/-- C1 witness: the four-byte descriptor `95 40 80 90` (Report Count 64,
Input, Output) parses to the negotiated size 64. -/
theorem parse_returns_matching_size_witness :
    parse_hid_report_desc (dataOf [0x95, 64, 0x80, 0x90]) 4 = .ok 64 :=
  parse_returns_matching_size (dataOf [0x95, 64, 0x80, 0x90]) 4 64 rfl rfl (Or.inl rfl)

/-- C2: for every request of length at most the negotiated packet size,
the exchange builds an outbound physical frame of exactly
`report_size + 1` bytes: byte 0 is `0x00`, the next `req` bytes are the
request verbatim, and every remaining byte is `0xff`. -/
theorem exchange_builds_padded_frame (rs : Nat) (hid0 : Nat → Nat) (dev : Device)
    (data : Nat → Nat) (resp req : Nat) (hreq : req ≤ rs)
    (hbytes : ∀ i, i < req → data i < 256) :
    (dbg_dap_cmd rs hid0 dev data resp req).written.length = rs + 1 ∧
    (dbg_dap_cmd rs hid0 dev data resp req).written.getD 0 0xff = 0x00 ∧
    (∀ i, i < req → (dbg_dap_cmd rs hid0 dev data resp req).written.getD (i + 1) 0 = data i) ∧
    (∀ j, req < j → j ≤ rs →
      (dbg_dap_cmd rs hid0 dev data resp req).written.getD j 0 = 0xff) := by
  rw [dbg_dap_cmd_written]
  refine ⟨by simp, ?_, ?_, ?_⟩
  · rw [getD_map_range, if_pos (by omega), buildFrame_zero]
  · intro i hi
    rw [getD_map_range, if_pos (by omega), buildFrame_req _ _ _ _ _ hi,
      Nat.mod_eq_of_lt (hbytes i hi)]
  · intro j h1 h2
    rw [getD_map_range, if_pos (by omega), buildFrame_pad _ _ _ _ _ h1 h2]

/-- C2 witness: for request `[0x02, 0xAA, 0xBB]` on a session with
negotiated size 64 the physical outbound frame is exactly 65 bytes:
`0x00`, then `0x02 0xAA 0xBB`, then 61 bytes of `0xff`. -/
theorem exchange_builds_padded_frame_witness :
    (dbg_dap_cmd 64 (fun _ => 0) ⟨0, 0, fun _ => 0⟩ (dataOf [0x02, 0xAA, 0xBB]) 64 3).written
      = 0x00 :: 0x02 :: 0xAA :: 0xBB :: List.replicate 61 0xff ∧
    (dbg_dap_cmd 64 (fun _ => 0) ⟨0, 0, fun _ => 0⟩
      (dataOf [0x02, 0xAA, 0xBB]) 64 3).written.length = 64 + 1 ∧
    (dbg_dap_cmd 64 (fun _ => 0) ⟨0, 0, fun _ => 0⟩
      (dataOf [0x02, 0xAA, 0xBB]) 64 3).written.getD 1 0 = 0x02 ∧
    (dbg_dap_cmd 64 (fun _ => 0) ⟨0, 0, fun _ => 0⟩
      (dataOf [0x02, 0xAA, 0xBB]) 64 3).written.getD 4 0 = 0xff :=
  have h := exchange_builds_padded_frame 64 (fun _ => 0) ⟨0, 0, fun _ => 0⟩
    (dataOf [0x02, 0xAA, 0xBB]) 64 3 (by norm_num) (by intro i hi; interval_cases i <;> decide)
  ⟨by decide, h.1, by simpa using h.2.2.1 0 (by norm_num), h.2.2.2 4 (by norm_num) (by norm_num)⟩

/-- C3: the parser fails exactly when its post-pass validation is
violated — a resolved input size different from the resolved output
size yields the size-mismatch error, an agreeing size outside
`{64, 512, 1024}` yields the unsupported-size error, and otherwise the
parse succeeds. -/
theorem parse_error_cases (data : Nat → Nat) (size inp out : Nat)
    (hin : (parseLoop data size size 0 initState).input = inp)
    (hout : (parseLoop data size size 0 initState).output = out) :
    (inp ≠ out → parse_hid_report_desc data size = .error .sizeMismatch) ∧
    (inp = out → inp ≠ 64 → inp ≠ 512 → inp ≠ 1024 →
      parse_hid_report_desc data size = .error (.unsupportedSize inp)) ∧
    (inp = out → (inp = 64 ∨ inp = 512 ∨ inp = 1024) →
      parse_hid_report_desc data size = .ok inp) := by
  refine ⟨?_, ?_, ?_⟩
  · intro h
    rw [parse_hid_report_desc]
    simp only [hin, hout]
    simp [h]
  · intro he h64 h512 h1024
    subst he
    rw [parse_hid_report_desc]
    simp only [hin, hout]
    simp [h64, h512, h1024]
  · intro he hv
    subst he
    rw [parse_hid_report_desc]
    simp only [hin, hout]
    rcases hv with h | h | h <;> subst h <;> simp

/-- C3 witness: a descriptor with input size 64 and output size 32 fails
with the size-mismatch error, and a descriptor with both sizes 32 fails
with the unsupported-size error. -/
theorem parse_error_cases_witness :
    parse_hid_report_desc (dataOf [0x95, 64, 0x80, 0x95, 32, 0x90]) 6
      = .error .sizeMismatch ∧
    parse_hid_report_desc (dataOf [0x95, 32, 0x80, 0x90]) 4
      = .error (.unsupportedSize 32) :=
  ⟨(parse_error_cases (dataOf [0x95, 64, 0x80, 0x95, 32, 0x90]) 6 64 32 rfl rfl).1 (by decide),
   (parse_error_cases (dataOf [0x95, 32, 0x80, 0x90]) 4 32 32 rfl rfl).2.1 rfl
     (by decide) (by decide) (by decide)⟩

/-- C4: an item header with size code 3 carries a 4-byte payload (not
3), decoded for a Report Count item as a 4-byte little-endian value;
size codes 0, 1 and 2 carry 0, 1 and 2 payload bytes, with code 0
yielding the value 0.  `0x97/0x94/0x95/0x96` are the Report Count
headers with size codes 3, 0, 1, 2; the `reads` lists exhibit how many
payload bytes each one consumes. -/
theorem item_payload_sizes (data : Nat → Nat) (size i : Nat) (st : ParseState) (hi : i < size)
    (hb : ∀ j, j < 4 → data (i + 1 + j) < 256) :
    decodeBSize 0 = 0 ∧ decodeBSize 1 = 1 ∧ decodeBSize 2 = 2 ∧ decodeBSize 3 = 4 ∧
    (data i % 256 = 0x97 →
      (parseLoop data size 1 i st).reads = st.reads ++ [i] ++ [i+1, i+2, i+3, i+4] ∧
      (parseLoop data size 1 i st).count
        = data (i+1) + 256 * data (i+2) + 65536 * data (i+3) + 16777216 * data (i+4)) ∧
    (data i % 256 = 0x94 →
      (parseLoop data size 1 i st).reads = st.reads ++ [i] ∧
      (parseLoop data size 1 i st).count = 0) ∧
    (data i % 256 = 0x95 →
      (parseLoop data size 1 i st).reads = st.reads ++ [i] ++ [i+1] ∧
      (parseLoop data size 1 i st).count = data (i+1)) ∧
    (data i % 256 = 0x96 →
      (parseLoop data size 1 i st).reads = st.reads ++ [i] ++ [i+1, i+2] ∧
      (parseLoop data size 1 i st).count = data (i+1) + 256 * data (i+2)) := by
  have hb0 : data (i + 1) < 256 := by simpa using hb 0 (by norm_num)
  have hb1 : data (i + 2) < 256 := by
    have h := hb 1 (by norm_num)
    rwa [show i + 1 + 1 = i + 2 from by omega] at h
  have hb2 : data (i + 3) < 256 := by
    have h := hb 2 (by norm_num)
    rwa [show i + 1 + 2 = i + 3 from by omega] at h
  have hb3 : data (i + 4) < 256 := by
    have h := hb 3 (by norm_num)
    rwa [show i + 1 + 3 = i + 4 from by omega] at h
  refine ⟨rfl, rfl, rfl, rfl, ?_, ?_, ?_, ?_⟩
  · intro hdr
    simp only [parseLoop, hdr, hi, if_true, decodeBSize,
      show ((151:Nat) >>> 2 &&& 3) = 1 from by decide,
      show ((151:Nat) >>> 4 &&& 15) = 9 from by decide,
      show ((151:Nat) &&& 3) = 3 from by decide]
    simp [List.range_succ, countLoop_le4 data (i + 1) hb0 hb1 hb2 hb3]
  · intro hdr
    simp only [parseLoop, hdr, hi, if_true, decodeBSize,
      show ((148:Nat) >>> 2 &&& 3) = 1 from by decide,
      show ((148:Nat) >>> 4 &&& 15) = 9 from by decide,
      show ((148:Nat) &&& 3) = 0 from by decide]
    simp [countLoop]
  · intro hdr
    simp only [parseLoop, hdr, hi, if_true, decodeBSize,
      show ((149:Nat) >>> 2 &&& 3) = 1 from by decide,
      show ((149:Nat) >>> 4 &&& 15) = 9 from by decide,
      show ((149:Nat) &&& 3) = 1 from by decide]
    simp [List.range_succ, countLoop, Nat.mod_eq_of_lt hb0]
  · intro hdr
    simp only [parseLoop, hdr, hi, if_true, decodeBSize,
      show ((150:Nat) >>> 2 &&& 3) = 1 from by decide,
      show ((150:Nat) >>> 4 &&& 15) = 9 from by decide,
      show ((150:Nat) &&& 3) = 2 from by decide]
    have e2 : countLoop data (i + 1) 2 0 0 = data (i + 1) + 256 * data (i + 2) := by
      simp only [countLoop, Nat.add_zero, Nat.zero_add]
      rw [Nat.mod_eq_of_lt hb0,
        Nat.mod_eq_of_lt
          (by rwa [show i + 1 + 1 = i + 2 from by omega] : data (i + 1 + 1) < 256)]
      rw [Nat.zero_or, Nat.shiftLeft_zero, Nat.one_mul,
        lor_shiftLeft_eq_add (data (i + 1)) (data (i + 1 + 1)) 8 hb0]
      rw [show i + 1 + 1 = i + 2 from by omega]
      norm_num
      ring
    simp [List.range_succ, e2]

/-- C4 witness: a Report Count item with header `0x97` (size code 3)
reads the four payload bytes at indices 1 through 4 and decodes the
little-endian value `0x04030201`. -/
theorem item_payload_sizes_witness :
    decodeBSize 3 = 4 ∧
    (parseLoop (dataOf [0x97, 1, 2, 3, 4, 0x80, 0x90]) 7 1 0 initState).reads
      = [0, 1, 2, 3, 4] ∧
    (parseLoop (dataOf [0x97, 1, 2, 3, 4, 0x80, 0x90]) 7 1 0 initState).count
      = 1 + 256 * 2 + 65536 * 3 + 16777216 * 4 :=
  have h := item_payload_sizes (dataOf [0x97, 1, 2, 3, 4, 0x80, 0x90]) 7 0 initState
    (by norm_num) (by intro j hj; interval_cases j <;> decide)
  ⟨h.2.2.2.1, (h.2.2.2.2.1 (by decide)).1, (h.2.2.2.2.1 (by decide)).2⟩

/-- C5: the exchange fails exactly when the device write fails, the
device read fails, the read returns zero bytes, or the first response
byte differs from the first request byte; the mismatch error carries
both the expected and the received identifier, and no payload is
returned in any error case (the result is an `Except` error). -/
theorem exchange_error_cases (rs : Nat) (hid0 : Nat → Nat) (dev : Device) (data : Nat → Nat)
    (resp req : Nat) :
    (dev.writeRes < 0 →
      (dbg_dap_cmd rs hid0 dev data resp req).result = .error .writeFailure) ∧
    (0 ≤ dev.writeRes → dev.readRes < 0 →
      (dbg_dap_cmd rs hid0 dev data resp req).result = .error .readFailure) ∧
    (0 ≤ dev.writeRes → dev.readRes = 0 →
      (dbg_dap_cmd rs hid0 dev data resp req).result = .error .emptyResponse) ∧
    (0 ≤ dev.writeRes → 0 < dev.readRes → dev.readBytes 0 % 256 ≠ data 0 % 256 →
      (dbg_dap_cmd rs hid0 dev data resp req).result
        = .error (.mismatch (data 0 % 256) (dev.readBytes 0 % 256))) ∧
    (0 ≤ dev.writeRes → 0 < dev.readRes → dev.readBytes 0 % 256 = data 0 % 256 →
      ∃ cnt out, (dbg_dap_cmd rs hid0 dev data resp req).result = .ok (cnt, out)) := by
  refine ⟨?_, ?_, ?_, ?_, ?_⟩
  · intro h1
    rw [dbg_dap_cmd]
    dsimp only
    rw [if_pos h1]
  · intro h1 h2
    rw [dbg_dap_cmd]
    dsimp only
    rw [if_neg (by omega), if_pos h2]
  · intro h1 h2
    rw [dbg_dap_cmd]
    dsimp only
    rw [if_neg (by omega), if_neg (by omega), if_pos (by omega : dev.readRes.toNat = 0)]
  · intro h1 h2 h3
    have hn : 0 < dev.readRes.toNat := by omega
    rw [dbg_dap_cmd]
    dsimp only
    rw [if_neg (by omega), if_neg (by omega), if_neg (by omega : ¬dev.readRes.toNat = 0)]
    rw [if_pos (by rw [memcpyAt_zero_lt _ _ _ _ hn]; exact h3)]
    rw [memcpyAt_zero_lt _ _ _ _ hn]
  · intro h1 h2 h3
    have hn : 0 < dev.readRes.toNat := by omega
    rw [dbg_dap_cmd]
    dsimp only
    rw [if_neg (by omega), if_neg (by omega), if_neg (by omega : ¬dev.readRes.toNat = 0)]
    rw [if_neg (by rw [memcpyAt_zero_lt _ _ _ _ hn]; simpa using h3)]
    exact ⟨_, _, rfl⟩

/-- C5 witness: concrete devices exercising each failure — failed write,
failed read, empty read, identifier mismatch (request `0x02` answered by
`0x07` reports both bytes), and a matching response succeeding. -/
theorem exchange_error_cases_witness :
    (dbg_dap_cmd 64 (fun _ => 0) ⟨-1, 0, fun _ => 0⟩ (dataOf [2]) 64 1).result
      = .error .writeFailure ∧
    (dbg_dap_cmd 64 (fun _ => 0) ⟨0, -1, fun _ => 0⟩ (dataOf [2]) 64 1).result
      = .error .readFailure ∧
    (dbg_dap_cmd 64 (fun _ => 0) ⟨0, 0, fun _ => 0⟩ (dataOf [2]) 64 1).result
      = .error .emptyResponse ∧
    (dbg_dap_cmd 64 (fun _ => 0) ⟨0, 2, fun _ => 7⟩ (dataOf [2]) 64 1).result
      = .error (.mismatch 2 7) ∧
    (∃ cnt out,
      (dbg_dap_cmd 64 (fun _ => 0) ⟨0, 2, fun _ => 2⟩ (dataOf [2]) 64 1).result
        = .ok (cnt, out)) :=
  ⟨(exchange_error_cases 64 (fun _ => 0) ⟨-1, 0, fun _ => 0⟩ (dataOf [2]) 64 1).1
      (by norm_num),
   (exchange_error_cases 64 (fun _ => 0) ⟨0, -1, fun _ => 0⟩ (dataOf [2]) 64 1).2.1
      (by norm_num) (by norm_num),
   (exchange_error_cases 64 (fun _ => 0) ⟨0, 0, fun _ => 0⟩ (dataOf [2]) 64 1).2.2.1
      (by norm_num) (by norm_num),
   (exchange_error_cases 64 (fun _ => 0) ⟨0, 2, fun _ => 7⟩ (dataOf [2]) 64 1).2.2.2.1
      (by norm_num) (by norm_num) (by decide),
   (exchange_error_cases 64 (fun _ => 0) ⟨0, 2, fun _ => 2⟩ (dataOf [2]) 64 1).2.2.2.2
      (by norm_num) (by norm_num) (by decide)⟩

/-- C6: on a successful exchange that read back `n > 0` bytes, the
returned count is `n - 1` (which may exceed the caller's capacity), and
the bytes copied into the caller's buffer are the response minus its
leading identifier byte, truncated to `min resp (n - 1)`; the rest of
the caller's buffer is untouched, so the caller detects truncation by
comparing the returned count to the requested capacity. -/
theorem exchange_success (rs : Nat) (hid0 : Nat → Nat) (dev : Device) (data : Nat → Nat)
    (resp req : Nat) (hw : 0 ≤ dev.writeRes) (hr : 0 < dev.readRes)
    (hm : dev.readBytes 0 % 256 = data 0 % 256) :
    ∃ out, (dbg_dap_cmd rs hid0 dev data resp req).result
        = .ok (dev.readRes.toNat - 1, out) ∧
      (∀ i, i < min resp (dev.readRes.toNat - 1) → out i = dev.readBytes (i + 1) % 256) ∧
      (∀ i, min resp (dev.readRes.toNat - 1) ≤ i → out i = data i) := by
  have hn : 0 < dev.readRes.toNat := by omega
  rw [dbg_dap_cmd]
  dsimp only
  rw [if_neg (by omega), if_neg (by omega), if_neg (by omega : ¬dev.readRes.toNat = 0)]
  rw [if_neg (by rw [memcpyAt_zero_lt _ _ _ _ hn]; simpa using hm)]
  refine ⟨_, rfl, ?_, ?_⟩
  · intro i hi
    rw [memcpyAt_zero_lt _ _ _ _ hi]
    rw [memcpyAt_zero_lt _ _ _ _ (by omega : i + 1 < dev.readRes.toNat)]
    simp [Nat.mod_mod_of_dvd]
  · intro i hi
    rw [memcpyAt_zero_ge _ _ _ _ hi]

/-- C6 witness: the device answers 5 bytes `[9, 10, 20, 30, 40]` to the
request `[9]` with capacity 2; the returned count is 4 (exceeding the
capacity, so the caller can detect truncation), the two copied bytes
are `10` and `20`, and the buffer past the capacity is untouched. -/
theorem exchange_success_witness :
    ∃ out, (dbg_dap_cmd 64 (fun _ => 0) ⟨0, 5, dataOf [9, 10, 20, 30, 40]⟩
        (dataOf [9]) 2 1).result = .ok (4, out) ∧
      (∀ i, i < 2 → out i = dataOf [9, 10, 20, 30, 40] (i + 1) % 256) ∧
      (∀ i, 2 ≤ i → out i = dataOf [9] i) :=
  exchange_success 64 (fun _ => 0) ⟨0, 5, dataOf [9, 10, 20, 30, 40]⟩ (dataOf [9]) 2 1
    (by norm_num) (by norm_num) (by decide)

/-- C7 counterexample: the claim that the parser reads only indices
strictly below the supplied length is false — on the one-byte
descriptor `[0x95]` (a Report Count header announcing a 1-byte payload
that is not present) the parser reads index 1, which is not below the
length 1. -/
theorem parse_reads_oob :
    ¬ (∀ j ∈ (parseLoop (dataOf [0x95]) 1 1 0 initState).reads, j < 1) := by
  decide

/-- C7 (amended): for every input byte sequence, including malformed or
truncated descriptors, the parser terminates with either a negotiated
size in `{64, 512, 1024}` or one of the two fatal parse errors — never
a best-guess size — and every byte it reads is at an index strictly
below `size + 4`: a truncated trailing Report Count item may read up to
four payload bytes past the end of the buffer, which is the only
violation of the original claim. -/
theorem parse_totality (data : Nat → Nat) (size : Nat) :
    (∀ j ∈ (parseLoop data size size 0 initState).reads, j < size + 4) ∧
    ((∃ v, parse_hid_report_desc data size = .ok v ∧ (v = 64 ∨ v = 512 ∨ v = 1024)) ∨
      parse_hid_report_desc data size = .error .sizeMismatch ∨
      (∃ s, parse_hid_report_desc data size = .error (.unsupportedSize s))) := by
  constructor
  · exact parseLoop_reads_bound data size size 0 initState (by simp [initState])
  · rw [parse_hid_report_desc]
    split_ifs with h1 h2
    · right; left; rfl
    · right; right; exact ⟨_, rfl⟩
    · left
      refine ⟨_, rfl, ?_⟩
      push_neg at h2
      rcases eq_or_ne (parseLoop data size size 0 initState).input 64 with h | h
      · exact Or.inl h
      · rcases eq_or_ne (parseLoop data size size 0 initState).input 512 with h' | h'
        · exact Or.inr (Or.inl h')
        · exact Or.inr (Or.inr (by tauto))

/-- C8: `dbg_close` is idempotent and safe — a second close on the same
session releases nothing further and changes no operating-system state,
and a close on a never-opened session (where `debugger_fd` still holds
its initial `-1`, which is not an open descriptor) is a no-op; in the
modelled OS, closing a non-open descriptor fails benignly rather than
faulting. -/
theorem dbg_close_idempotent (osOpen : Int → Bool) (fd : Int) :
    dbg_close fd (dbg_close fd osOpen) = dbg_close fd osOpen ∧
    (osOpen (-1) = false → dbg_close (-1) osOpen = osOpen) := by
  constructor
  · by_cases h : fd = 0
    · subst h
      simp [dbg_close]
    · by_cases ho : osOpen fd = true
      · funext g
        simp [dbg_close, os_close, h, ho]
      · funext g
        simp only [Bool.not_eq_true] at ho
        simp [dbg_close, os_close, h, ho]
  · intro h
    funext g
    simp [dbg_close, os_close, h]

/-- C8 witness: with no descriptor open, closing the never-opened
session (`debugger_fd = -1`) leaves the operating-system state
unchanged. -/
theorem dbg_close_idempotent_witness :
    ((fun _ => false) : Int → Bool) (-1) = false ∧
    dbg_close (-1) (fun _ => false) = (fun _ => false) :=
  ⟨rfl, (dbg_close_idempotent (fun _ => false) (-1)).2 rfl⟩

/-- C9: the outbound frame and the result of an exchange do not depend
on the previous contents of the shared `hid_buffer`: whatever state any
earlier sequence of calls left there (any two states `hid0`, `hid0'`),
the final call's written frame and returned result are identical, so no
residual payload bytes from a prior longer request can appear. -/
theorem exchange_no_residual (rs : Nat) (hid0 hid0' : Nat → Nat) (dev : Device)
    (data : Nat → Nat) (resp req : Nat) :
    (dbg_dap_cmd rs hid0 dev data resp req).written
      = (dbg_dap_cmd rs hid0' dev data resp req).written ∧
    (dbg_dap_cmd rs hid0 dev data resp req).result
      = (dbg_dap_cmd rs hid0' dev data resp req).result := by
  have hw : (List.range (rs + 1)).map (buildFrame hid0 rs data req)
      = (List.range (rs + 1)).map (buildFrame hid0' rs data req) := by
    apply List.map_congr_left
    intro a ha
    rw [List.mem_range] at ha
    exact buildFrame_hid_indep hid0 hid0' rs data req a ha
  constructor
  · rw [dbg_dap_cmd_written, dbg_dap_cmd_written, hw]
  · by_cases h1 : dev.writeRes < 0
    · rw [dbg_dap_cmd, dbg_dap_cmd]
      dsimp only
      rw [if_pos h1, if_pos h1]
    · by_cases h2 : dev.readRes < 0
      · rw [dbg_dap_cmd, dbg_dap_cmd]
        dsimp only
        rw [if_neg h1, if_neg h1, if_pos h2, if_pos h2]
      · by_cases h3 : dev.readRes.toNat = 0
        · rw [dbg_dap_cmd, dbg_dap_cmd]
          dsimp only
          rw [if_neg h1, if_neg h1, if_neg h2, if_neg h2, if_pos h3, if_pos h3]
        · have hn : 0 < dev.readRes.toNat := by omega
          have hb2 : memcpyAt (buildFrame hid0 rs data req) 0 dev.readBytes
              dev.readRes.toNat 0
              = memcpyAt (buildFrame hid0' rs data req) 0 dev.readBytes
                dev.readRes.toNat 0 := by
            rw [memcpyAt_zero_lt _ _ _ _ hn, memcpyAt_zero_lt _ _ _ _ hn]
          rw [dbg_dap_cmd, dbg_dap_cmd]
          dsimp only
          rw [if_neg h1, if_neg h1, if_neg h2, if_neg h2, if_neg h3, if_neg h3]
          by_cases h4 : memcpyAt (buildFrame hid0 rs data req) 0 dev.readBytes
              dev.readRes.toNat 0 ≠ data 0 % 256
          · rw [if_pos h4, if_pos (by rw [← hb2]; exact h4)]
            dsimp only
            rw [hb2]
          · rw [if_neg h4, if_neg (by rw [← hb2]; exact h4)]
            dsimp only
            have hout : memcpyAt data 0
                (fun i => memcpyAt (buildFrame hid0 rs data req) 0 dev.readBytes
                  dev.readRes.toNat (i + 1)) (min resp (dev.readRes.toNat - 1))
              = memcpyAt data 0
                (fun i => memcpyAt (buildFrame hid0' rs data req) 0 dev.readBytes
                  dev.readRes.toNat (i + 1)) (min resp (dev.readRes.toNat - 1)) := by
              funext i
              rcases Nat.lt_or_ge i (min resp (dev.readRes.toNat - 1)) with hi | hi
              · rw [memcpyAt_zero_lt _ _ _ _ hi, memcpyAt_zero_lt _ _ _ _ hi]
                rw [memcpyAt_zero_lt _ _ _ _ (by omega : i + 1 < dev.readRes.toNat),
                  memcpyAt_zero_lt _ _ _ _ (by omega : i + 1 < dev.readRes.toNat)]
              · rw [memcpyAt_zero_ge _ _ _ _ hi, memcpyAt_zero_ge _ _ _ _ hi]
            rw [hout]

/-- C10: the exchange overwrites the caller's request buffer in place
with the response payload — at most `min resp (n - 1)` leading bytes
are replaced (taken from `hid_buffer[1..]`, the response minus its
identifier byte) while every other byte keeps its request value — and
the identifier used for validation is captured from the buffer's first
byte before any overwrite, so a mismatch always reports the original
request identifier. -/
theorem exchange_in_place_effect (rs : Nat) (hid0 : Nat → Nat) (dev : Device)
    (data : Nat → Nat) (resp req : Nat) (hw : 0 ≤ dev.writeRes) (hr : 0 < dev.readRes) :
    (dev.readBytes 0 % 256 ≠ data 0 % 256 →
      (dbg_dap_cmd rs hid0 dev data resp req).result
        = .error (.mismatch (data 0 % 256) (dev.readBytes 0 % 256))) ∧
    (dev.readBytes 0 % 256 = data 0 % 256 →
      ∃ out, (dbg_dap_cmd rs hid0 dev data resp req).result
          = .ok (dev.readRes.toNat - 1, out) ∧
        (∀ i, min resp (dev.readRes.toNat - 1) ≤ i → out i = data i) ∧
        (∀ i, i < min resp (dev.readRes.toNat - 1) →
          out i = (dbg_dap_cmd rs hid0 dev data resp req).hid_final (i + 1) % 256)) := by
  have hn : 0 < dev.readRes.toNat := by omega
  constructor
  · intro h3
    rw [dbg_dap_cmd]
    dsimp only
    rw [if_neg (by omega), if_neg (by omega), if_neg (by omega : ¬dev.readRes.toNat = 0)]
    rw [if_pos (by rw [memcpyAt_zero_lt _ _ _ _ hn]; exact h3)]
    rw [memcpyAt_zero_lt _ _ _ _ hn]
  · intro h3
    rw [dbg_dap_cmd]
    dsimp only
    rw [if_neg (by omega), if_neg (by omega), if_neg (by omega : ¬dev.readRes.toNat = 0)]
    rw [if_neg (by rw [memcpyAt_zero_lt _ _ _ _ hn]; simpa using h3)]
    refine ⟨_, rfl, ?_, ?_⟩
    · intro i hi
      rw [memcpyAt_zero_ge _ _ _ _ hi]
    · intro i hi
      rw [memcpyAt_zero_lt _ _ _ _ hi]

/-- C10 witness: a mismatching device (request `0x05` answered by
`0x09`) yields the mismatch error naming the original request
identifier, and a matching device's response overwrites only the two
payload bytes while reporting count 2. -/
theorem exchange_in_place_effect_witness :
    (dbg_dap_cmd 64 (fun _ => 0) ⟨0, 3, dataOf [9, 1, 2]⟩ (dataOf [5]) 64 1).result
      = .error (.mismatch 5 9) ∧
    (∃ out, (dbg_dap_cmd 64 (fun _ => 0) ⟨0, 3, dataOf [5, 1, 2]⟩ (dataOf [5]) 64 1).result
        = .ok (2, out) ∧
      (∀ i, 2 ≤ i → out i = dataOf [5] i) ∧
      (∀ i, i < 2 →
        out i = (dbg_dap_cmd 64 (fun _ => 0) ⟨0, 3, dataOf [5, 1, 2]⟩
          (dataOf [5]) 64 1).hid_final (i + 1) % 256)) :=
  ⟨(exchange_in_place_effect 64 (fun _ => 0) ⟨0, 3, dataOf [9, 1, 2]⟩ (dataOf [5]) 64 1
      (by norm_num) (by norm_num)).1 (by decide),
   (exchange_in_place_effect 64 (fun _ => 0) ⟨0, 3, dataOf [5, 1, 2]⟩ (dataOf [5]) 64 1
      (by norm_num) (by norm_num)).2 (by decide)⟩

end Edbg
